import Mathlib

/-!
# live2d-py: the model wrapper (LAppModelWrapper.cpp)

A shallow embedding of the first-party state of the wrapper: the expression
fade timer kept in `PyLAppModelObject`, the argument-checking shims in front
of the engine, and the two motion trampolines.

Conventions.

* `time_t` and the millisecond clock reading are mathematical integers: the
  readings are milliseconds since the epoch and signed overflow is undefined
  in C++, so no wrap-around is part of the program's meaning.
* `std::chrono::system_clock::now()` is an input: every function that reads
  the clock takes the reading as the parameter `now`.
* The engine (`self->model`) is external.  A function returns, in program
  order, the list of the effects it has on the outside world.
* `nullptr` is `none`.
-/

namespace Live2D

/-! ## Python values and the C values converted from them -/

/-- The Python objects the wrapper can be handed.  `Callable` and `Instance`
carry an identity; `Float` carries the identity of its double value, whose
arithmetic is not modelled. -/
inductive PyObject where
  | None
  | Long (v : Int)
  | Float (bits : Nat)
  | Unicode (s : String)
  | Callable (id : Nat)
  | Instance (id : Nat)
  deriving DecidableEq, Repr

/-- The exception types the wrapper and the argument parser raise, and the
type of whatever a handler raises. -/
inductive PyExc where
  | TypeError
  | OverflowError
  | ValueError
  | Raised (id : Nat)
  deriving DecidableEq, Repr

/-- The value of a C local after a successful conversion. -/
inductive CValue where
  | str (s : String)
  | int (v : Int)
  | float (src : PyObject)
  | byte (v : Int)
  | obj (o : PyObject)
  deriving DecidableEq, Repr

/-! ## The engine and the effects -/

/-- The calls made on `self->model`.  An argument that is `none` is a C local
that was never written (for the callee pointers: `nullptr`). -/
inductive EngineCall where
  | SetExpression (expressionID : String)
  | ResetExpression
  | Update
  | Resize (args : List (Option CValue))
  | SetOffset (args : List (Option CValue))
  | SetScale (args : List (Option CValue))
  | SetParameterValue (args : List (Option CValue))
  | AddParameterValue (args : List (Option CValue))
  | SetAutoBreathEnable (args : List (Option CValue))
  | SetAutoBlinkEnable (args : List (Option CValue))
  | SetPartOpacity (args : List (Option CValue))
  | SetPartMultiplyColor (args : List (Option CValue))
  | SetPartScreenColor (args : List (Option CValue))
  | StartMotion (group : String) (no priority : Int)
      (onStartedCallee onFinishedCallee : Option PyObject)
  deriving DecidableEq, Repr

/-- What a wrapper function does to the outside world, in program order. -/
inductive Effect where
  | engine (c : EngineCall)
  | info (msg : String)
  | gilEnsure
  | gilRelease
  | call (callee : PyObject) (args : List CValue)
  | incref (o : PyObject)
  | decref (o : PyObject)
  deriving DecidableEq, Repr

/-! ## The model handle and the expression fade timer -/

/-- The first-party fields of `struct PyLAppModelObject`. -/
structure PyLAppModelObject where
  lastExpression : Option String
  expStartedAt : Int
  fadeout : Int
  deriving DecidableEq, Repr

/-- The result of a method whose only Python-side action is its return value. -/
structure MethodResult where
  ret : Option PyObject
  self : PyLAppModelObject
  effects : List Effect
  deriving DecidableEq, Repr

/-- `PyLAppModel_init`: the fields after construction. -/
def PyLAppModel_init : PyLAppModelObject :=
  { lastExpression := none, expStartedAt := -1, fadeout := -1 }

/-- `PyLAppModel_SetExpression`.  `parsed` is what
`PyArg_ParseTupleAndKeywords(args, kwargs, "s|i", ...)` delivered: `none` when
it failed, otherwise `expressionID` (a C string, so without an embedded NUL)
and the `fadeout` keyword when given (the local keeps its initial value `-1`
when it is not).  The copy into `lastExpression` is the string itself. -/
def PyLAppModel_SetExpression (self : PyLAppModelObject) (now : Int)
    (parsed : Option (String × Option Int)) : MethodResult :=
  match parsed with
  | none => { ret := none, self := self, effects := [] }
  | some (expressionID, kw) =>
    let fadeout : Int := kw.getD (-1)
    let self1 : PyLAppModelObject :=
      if fadeout ≥ 0 then
        { self with expStartedAt := now }
      else
        { self with lastExpression := some expressionID }
    let self2 : PyLAppModelObject := { self1 with fadeout := fadeout }
    { ret := some PyObject.None, self := self2,
      effects := [Effect.engine (EngineCall.SetExpression expressionID)] }

/-- `PyLAppModel_ResetExpression`. -/
def PyLAppModel_ResetExpression (self : PyLAppModelObject) : MethodResult :=
  { ret := some PyObject.None,
    self := { self with fadeout := -1, expStartedAt := -1, lastExpression := none },
    effects := [Effect.engine EngineCall.ResetExpression] }

/-- `PyLAppModel_Update`.  The clock is read only inside the outer `if`. -/
def PyLAppModel_Update (self : PyLAppModelObject) (now : Int) : MethodResult :=
  if self.fadeout ≥ 0 then
    let elapsed : Int := now - self.expStartedAt
    if elapsed ≥ self.fadeout then
      let fire : List Effect :=
        match self.lastExpression with
        | some e =>
          [Effect.engine (EngineCall.SetExpression e), Effect.info ("reset expression " ++ e)]
        | none =>
          [Effect.engine EngineCall.ResetExpression, Effect.info "clear expression"]
      { ret := some PyObject.None, self := { self with fadeout := -1 },
        effects := fire ++ [Effect.engine EngineCall.Update] }
    else
      { ret := some PyObject.None, self := self,
        effects := [Effect.engine EngineCall.Update] }
  else
    { ret := some PyObject.None, self := self,
      effects := [Effect.engine EngineCall.Update] }

/-! ## Sequences of calls on one handle -/

/-- One call on the handle, with the clock reading it would see. -/
inductive Op where
  | setExpression (now : Int) (expressionID : String) (kw : Option Int)
  | resetExpression
  | update (now : Int)
  deriving DecidableEq, Repr

/-- The call an `Op` stands for. -/
def Op.apply (self : PyLAppModelObject) : Op → MethodResult
  | Op.setExpression now e kw => PyLAppModel_SetExpression self now (some (e, kw))
  | Op.resetExpression => PyLAppModel_ResetExpression self
  | Op.update now => PyLAppModel_Update self now

/-- The handle after a sequence of calls. -/
def run (self : PyLAppModelObject) : List Op → PyLAppModelObject
  | [] => self
  | op :: ops => run (op.apply self).self ops

/-- The effects of a sequence of calls, in order. -/
def runEffects (self : PyLAppModelObject) : List Op → List Effect
  | [] => []
  | op :: ops => (op.apply self).effects ++ runEffects (op.apply self).self ops

/-- An `Op` that arms a transition: `SetExpression` with a nonnegative
`fadeout`. -/
def Op.arms : Op → Bool
  | Op.setExpression _ _ (some d) => decide (d ≥ 0)
  | _ => false

/-- An `Op` that stores a fallback: `SetExpression` with no `fadeout` or a
negative one. -/
def Op.storesFallback : Op → Bool
  | Op.setExpression _ _ (some d) => decide (d < 0)
  | Op.setExpression _ _ none => true
  | _ => false

/-- An effect that reverses an expression: the engine's `SetExpression` or
`ResetExpression`. -/
def Effect.isExpressionCall : Effect → Bool
  | Effect.engine (EngineCall.SetExpression _) => true
  | Effect.engine EngineCall.ResetExpression => true
  | _ => false

/-- The number of `SetExpression`/`ResetExpression` engine calls among the
effects. -/
def expressionCalls (effects : List Effect) : Nat :=
  (effects.filter Effect.isExpressionCall).length

/-- For each `Update` of a run of `Update` calls at the clock values `ts`,
whether it made a `SetExpression`/`ResetExpression` engine call. -/
def firings (self : PyLAppModelObject) : List Int → List Bool
  | [] => []
  | t :: ts =>
    decide (0 < expressionCalls (PyLAppModel_Update self t).effects)
      :: firings (PyLAppModel_Update self t).self ts

/-- The reading of "fires exactly when `now - s ≥ d`, at most once": `true` at
the first clock value of the list with `t - s ≥ d`, `false` everywhere else. -/
def firstDue (s d : Int) : List Int → List Bool
  | [] => []
  | t :: ts =>
    if t - s ≥ d then true :: ts.map (fun _ => false) else false :: firstDue s d ts

/-- The fallback identifier as the specification words it: the id of the most
recent `SetExpression` without a (nonnegative) duration, absent when there was
none or a `ResetExpression` came after it. -/
def fallbackAfter (prev : Option String) : List Op → Option String
  | [] => prev
  | Op.setExpression _ e none :: ops => fallbackAfter (some e) ops
  | Op.setExpression _ e (some d) :: ops =>
    if d < 0 then fallbackAfter (some e) ops else fallbackAfter prev ops
  | Op.resetExpression :: ops => fallbackAfter none ops
  | Op.update _ :: ops => fallbackAfter prev ops

/-- The active transition as the specification's lifecycle words it, as
(start time, duration): armed by a `SetExpression` with a nonnegative duration,
consumed by the `Update` at which the elapsed time reaches the duration,
cleared by `ResetExpression` and by a `SetExpression` without one. -/
def activeTransition (prev : Option (Int × Int)) : List Op → Option (Int × Int)
  | [] => prev
  | Op.setExpression _ _ none :: ops => activeTransition none ops
  | Op.setExpression now _ (some d) :: ops =>
    if d ≥ 0 then activeTransition (some (now, d)) ops else activeTransition none ops
  | Op.resetExpression :: ops => activeTransition none ops
  | Op.update now :: ops =>
    match prev with
    | some (s, d) =>
      if now - s ≥ d then activeTransition none ops else activeTransition (some (s, d)) ops
    | none => activeTransition none ops

/-- The handle agrees with a transition of the specification: when one is
active the handle holds its start time and its nonnegative duration; when none
is, the stored duration is negative. -/
def Tracks (a : Option (Int × Int)) (self : PyLAppModelObject) : Prop :=
  match a with
  | some (s, d) => self.expStartedAt = s ∧ self.fadeout = d ∧ d ≥ 0
  | none => self.fadeout < 0

/-- The stored duration while no transition is active, in words: the
negative `fadeout` given to the latest call other than `Update`, when that
call is a `SetExpression` with one, and -1 otherwise. -/
def idleDuration (prev : Int) : List Op → Int
  | [] => prev
  | Op.setExpression _ _ none :: ops => idleDuration (-1) ops
  | Op.setExpression _ _ (some d) :: ops =>
    if d < 0 then idleDuration d ops else idleDuration (-1) ops
  | Op.resetExpression :: ops => idleDuration (-1) ops
  | Op.update _ :: ops => idleDuration prev ops

/-- The handle agrees with `idleDuration`: while no transition is active the
stored duration is the idle one; while one is active the idle one is the -1
its consumption will store. -/
def Rests (a : Option (Int × Int)) (r : Int) (self : PyLAppModelObject) : Prop :=
  match a with
  | some _ => r = -1
  | none => self.fadeout = r

/-! ## The Python side: error indicator, argument parsing, handlers -/

/-- A pending Python error, by where it was raised: by the argument parser
(its message is not modelled), by `PyErr_SetString`, or by a handler. -/
inductive PyErr where
  | fromParser (exc : PyExc)
  | fromSetString (exc : PyExc) (msg : String)
  | fromHandler (id : Nat)
  deriving DecidableEq, Repr

/-- The part of the calling thread's state the wrapper touches: the error
indicator. -/
structure PyThreadState where
  curexc : Option PyErr
  deriving DecidableEq, Repr

/-- `PyErr_SetString`. -/
def PyErr_SetString (_ts : PyThreadState) (exc : PyExc) (msg : String) : PyThreadState :=
  { curexc := some (PyErr.fromSetString exc msg) }

/-- The result of a method that also touches the error indicator. -/
structure CallResult where
  ret : Option PyObject
  ts : PyThreadState
  effects : List Effect
  deriving DecidableEq, Repr

/-- `Py_IsNone`. -/
def Py_IsNone (o : PyObject) : Bool :=
  decide (o = PyObject.None)

/-- `PyCallable_Check` (CPython): whether the object can be called. -/
def PyCallable_Check : PyObject → Bool
  | PyObject.Callable _ => true
  | _ => false

/-- The format units the wrappers use with `PyArg_ParseTuple`. -/
inductive FormatUnit where
  | s
  | i
  | f
  | b
  deriving DecidableEq, Repr

/-- The conversion of one argument by `PyArg_ParseTuple` (CPython): `s` takes a
`str` without an embedded NUL, `i` an `int` that fits a C `int`, `f` a `float`
or an `int` that rounds to a finite double, `b` an `int` that fits an unsigned
char.  An `Instance` has no number protocol. -/
def convertItem : FormatUnit → PyObject → Except PyExc CValue
  | FormatUnit.s, PyObject.Unicode str =>
    if str.contains (Char.ofNat 0) then Except.error PyExc.ValueError
    else Except.ok (CValue.str str)
  | FormatUnit.i, PyObject.Long v =>
    if -2147483648 ≤ v ∧ v ≤ 2147483647 then Except.ok (CValue.int v)
    else Except.error PyExc.OverflowError
  | FormatUnit.f, PyObject.Float bits => Except.ok (CValue.float (PyObject.Float bits))
  | FormatUnit.f, PyObject.Long v =>
    if -(2 ^ 1024 - 2 ^ 970) < v ∧ v < 2 ^ 1024 - 2 ^ 970 then
      Except.ok (CValue.float (PyObject.Long v))
    else Except.error PyExc.OverflowError
  | FormatUnit.b, PyObject.Long v =>
    if 0 ≤ v ∧ v ≤ 255 then Except.ok (CValue.byte v)
    else Except.error PyExc.OverflowError
  | _, _ => Except.error PyExc.TypeError

/-- What a call of `PyArg_ParseTuple` leaves behind: its return value, the
error indicator, and the C locals it was given (`none`: not written). -/
structure ParseResult where
  rc : Int
  ts : PyThreadState
  slots : List (Option CValue)
  deriving DecidableEq, Repr

/-- The conversions of `PyArg_ParseTuple`, one by one, from left to right; the
first that fails ends the parse with return value 0 and the locals written so
far; when none fails the return value is 1. -/
def convertArgs (ts : PyThreadState) :
    List FormatUnit → List PyObject → List (Option CValue) → ParseResult
  | u :: us, a :: as, done =>
    match convertItem u a with
    | Except.ok v => convertArgs ts us as (done ++ [some v])
    | Except.error exc =>
      { rc := 0, ts := { curexc := some (PyErr.fromParser exc) },
        slots := done ++ (u :: us).map (fun _ => none) }
  | us, _, done => { rc := 1, ts := ts, slots := done ++ us.map (fun _ => none) }

/-- `PyArg_ParseTuple` (CPython) for a format of required units only: true (1)
on success; on failure false (0) with a pending exception.  A wrong number of
arguments fails before anything is converted. -/
def PyArg_ParseTuple (ts : PyThreadState) (args : List PyObject)
    (format : List FormatUnit) : ParseResult :=
  if args.length ≠ format.length then
    { rc := 0, ts := { curexc := some (PyErr.fromParser PyExc.TypeError) },
      slots := format.map (fun _ => none) }
  else
    convertArgs ts format args []

/-- `PyLAppModel_Resize`: format `"ii"`, tested with `!`. -/
def PyLAppModel_Resize (ts : PyThreadState) (args : List PyObject) : CallResult :=
  let p := PyArg_ParseTuple ts args [FormatUnit.i, FormatUnit.i]
  if p.rc = 0 then
    { ret := none, ts := PyErr_SetString p.ts PyExc.TypeError "invalid params.", effects := [] }
  else
    { ret := some PyObject.None, ts := p.ts,
      effects := [Effect.engine (EngineCall.Resize p.slots)] }

/-- `PyLAppModel_SetOffset`: format `"ff"`, tested with `< 0`. -/
def PyLAppModel_SetOffset (ts : PyThreadState) (args : List PyObject) : CallResult :=
  let p := PyArg_ParseTuple ts args [FormatUnit.f, FormatUnit.f]
  if p.rc < 0 then
    { ret := none,
      ts := PyErr_SetString p.ts PyExc.TypeError "Missing param \x27float dx, float dy\x27",
      effects := [] }
  else
    { ret := some PyObject.None, ts := p.ts,
      effects := [Effect.engine (EngineCall.SetOffset p.slots)] }

/-- `PyLAppModel_SetScale`: format `"f"`, tested with `< 0`. -/
def PyLAppModel_SetScale (ts : PyThreadState) (args : List PyObject) : CallResult :=
  let p := PyArg_ParseTuple ts args [FormatUnit.f]
  if p.rc < 0 then
    { ret := none, ts := PyErr_SetString p.ts PyExc.TypeError "Missing param \x27float scale\x27",
      effects := [] }
  else
    { ret := some PyObject.None, ts := p.ts,
      effects := [Effect.engine (EngineCall.SetScale p.slots)] }

/-- `PyLAppModel_SetParameterValue`: format `"sff"`, tested with `< 0`. -/
def PyLAppModel_SetParameterValue (ts : PyThreadState) (args : List PyObject) : CallResult :=
  let p := PyArg_ParseTuple ts args [FormatUnit.s, FormatUnit.f, FormatUnit.f]
  if p.rc < 0 then
    { ret := none,
      ts := PyErr_SetString p.ts PyExc.TypeError "Invalid params (str, float, float)",
      effects := [] }
  else
    { ret := some PyObject.None, ts := p.ts,
      effects := [Effect.engine (EngineCall.SetParameterValue p.slots)] }

/-- `PyLAppModel_AddParameterValue`: format `"sf"`, tested with `< 0`. -/
def PyLAppModel_AddParameterValue (ts : PyThreadState) (args : List PyObject) : CallResult :=
  let p := PyArg_ParseTuple ts args [FormatUnit.s, FormatUnit.f]
  if p.rc < 0 then
    { ret := none, ts := PyErr_SetString p.ts PyExc.TypeError "Invalid params (str, float)",
      effects := [] }
  else
    { ret := some PyObject.None, ts := p.ts,
      effects := [Effect.engine (EngineCall.AddParameterValue p.slots)] }

/-- `PyLAppModel_SetAutoBreathEnable`: format `"b"`, tested with `< 0`. -/
def PyLAppModel_SetAutoBreathEnable (ts : PyThreadState) (args : List PyObject) : CallResult :=
  let p := PyArg_ParseTuple ts args [FormatUnit.b]
  if p.rc < 0 then
    { ret := none, ts := PyErr_SetString p.ts PyExc.TypeError "Invalid param", effects := [] }
  else
    { ret := some PyObject.None, ts := p.ts,
      effects := [Effect.engine (EngineCall.SetAutoBreathEnable p.slots)] }

/-- `PyLAppModel_SetAutoBlinkEnable`: format `"b"`, tested with `< 0`. -/
def PyLAppModel_SetAutoBlinkEnable (ts : PyThreadState) (args : List PyObject) : CallResult :=
  let p := PyArg_ParseTuple ts args [FormatUnit.b]
  if p.rc < 0 then
    { ret := none, ts := PyErr_SetString p.ts PyExc.TypeError "Invalid param", effects := [] }
  else
    { ret := some PyObject.None, ts := p.ts,
      effects := [Effect.engine (EngineCall.SetAutoBlinkEnable p.slots)] }

/-- `PyLAppModel_SetPartOpacity`: format `"if"`, tested with `< 0`. -/
def PyLAppModel_SetPartOpacity (ts : PyThreadState) (args : List PyObject) : CallResult :=
  let p := PyArg_ParseTuple ts args [FormatUnit.i, FormatUnit.f]
  if p.rc < 0 then
    { ret := none, ts := PyErr_SetString p.ts PyExc.TypeError "Invalid param", effects := [] }
  else
    { ret := some PyObject.None, ts := p.ts,
      effects := [Effect.engine (EngineCall.SetPartOpacity p.slots)] }

/-- `PyLAppModel_SetPartMultiplyColor`: format `"iffff"`, tested with `< 0`. -/
def PyLAppModel_SetPartMultiplyColor (ts : PyThreadState) (args : List PyObject) : CallResult :=
  let p := PyArg_ParseTuple ts args
    [FormatUnit.i, FormatUnit.f, FormatUnit.f, FormatUnit.f, FormatUnit.f]
  if p.rc < 0 then
    { ret := none, ts := PyErr_SetString p.ts PyExc.TypeError "Invalid param", effects := [] }
  else
    { ret := some PyObject.None, ts := p.ts,
      effects := [Effect.engine (EngineCall.SetPartMultiplyColor p.slots)] }

/-- `PyLAppModel_SetPartScreenColor`: format `"iffff"`, tested with `< 0`. -/
def PyLAppModel_SetPartScreenColor (ts : PyThreadState) (args : List PyObject) : CallResult :=
  let p := PyArg_ParseTuple ts args
    [FormatUnit.i, FormatUnit.f, FormatUnit.f, FormatUnit.f, FormatUnit.f]
  if p.rc < 0 then
    { ret := none, ts := PyErr_SetString p.ts PyExc.TypeError "Invalid param", effects := [] }
  else
    { ret := some PyObject.None, ts := p.ts,
      effects := [Effect.engine (EngineCall.SetPartScreenColor p.slots)] }

/-! ## The motion callback bridge -/

/-- The fields of the engine's `ACubismMotion` the trampolines read. -/
structure ACubismMotion where
  onStartedCallee : Option PyObject
  onFinishedCallee : Option PyObject
  group : String
  no : Int
  deriving DecidableEq, Repr

/-- How a call of `PyObject_CallFunction` ends: with a new reference to the
result, or with `nullptr` and the error indicator set. -/
inductive CallOutcome where
  | returned (result : PyObject)
  | raised (err : PyErr)
  deriving DecidableEq, Repr

/-- `PyObject_CallFunction` (CPython) on a callee and its built arguments: the
interpreter is a parameter, it decides how each call ends.  A call that
returns leaves the error indicator alone; a call that raises sets it. -/
def PyObject_CallFunction (interp : PyObject → List CValue → CallOutcome)
    (ts : PyThreadState) (callee : PyObject) (args : List CValue) :
    Option PyObject × PyThreadState :=
  match interp callee args with
  | CallOutcome.returned result => (some result, ts)
  | CallOutcome.raised err => (none, { curexc := some err })

/-- `Py_XDECREF`: nothing on `nullptr`. -/
def Py_XDECREF : Option PyObject → List Effect
  | none => []
  | some o => [Effect.decref o]

/-- `OnMotionStartedCallback`.  The thread state is that of the thread the
engine calls the trampoline on: the one inside `model->Update()`, which has a
thread state of its own, so that `PyGILState_Release` leaves the error
indicator as it finds it. -/
def OnMotionStartedCallback (interp : PyObject → List CValue → CallOutcome)
    (ts : PyThreadState) (motion : ACubismMotion) : PyThreadState × List Effect :=
  match motion.onStartedCallee with
  | none => (ts, [])
  | some s_call =>
    let args := [CValue.str motion.group, CValue.int motion.no]
    let r := PyObject_CallFunction interp ts s_call args
    let dropResult : List Effect := if r.1 ≠ none then Py_XDECREF r.1 else []
    (r.2, [Effect.gilEnsure, Effect.call s_call args] ++ dropResult
            ++ Py_XDECREF (some s_call) ++ [Effect.gilRelease])

/-- `OnMotionFinishedCallback`. -/
def OnMotionFinishedCallback (interp : PyObject → List CValue → CallOutcome)
    (ts : PyThreadState) (motion : ACubismMotion) : PyThreadState × List Effect :=
  match motion.onFinishedCallee with
  | none => (ts, [])
  | some f_call =>
    let r := PyObject_CallFunction interp ts f_call []
    let dropResult : List Effect := if r.1 ≠ none then Py_XDECREF r.1 else []
    (r.2, [Effect.gilEnsure, Effect.call f_call []] ++ dropResult
            ++ Py_XDECREF (some f_call) ++ [Effect.gilRelease])

/-- `MakeCallee`: the callee pointer handed to the engine, the error indicator
and the reference taken. -/
def MakeCallee (ts : PyThreadState) (callback : Option PyObject) :
    Option PyObject × PyThreadState × List Effect :=
  match callback with
  | none => (none, ts, [])
  | some cb =>
    if Py_IsNone cb then (none, ts, [])
    else if !PyCallable_Check cb then
      (none, PyErr_SetString ts PyExc.TypeError "handler must be callable or None", [])
    else (some cb, ts, [Effect.incref cb])

/-- The locals of `PyLAppModel_StartMotion` after a successful parse of
`"sii|OO"`; a handler that was not passed keeps its initial `nullptr`. -/
structure StartMotionArgs where
  group : String
  no : Int
  priority : Int
  onStartHandler : Option PyObject
  onFinishHandler : Option PyObject
  deriving DecidableEq, Repr

/-- `PyLAppModel_StartMotion`.  `parsed` is what
`PyArg_ParseTupleAndKeywords(args, kwargs, "sii|OO", ...)` delivered, the
error it raised when it failed.  C++ leaves open which of the two
`MakeCallee` arguments is evaluated first: `startFirst` says. -/
def PyLAppModel_StartMotion (ts : PyThreadState) (startFirst : Bool)
    (parsed : Except PyErr StartMotionArgs) : CallResult :=
  match parsed with
  | Except.error err => { ret := none, ts := { curexc := some err }, effects := [] }
  | Except.ok a =>
    if startFirst then
      let s := MakeCallee ts a.onStartHandler
      let f := MakeCallee s.2.1 a.onFinishHandler
      { ret := some PyObject.None, ts := f.2.1,
        effects := s.2.2 ++ f.2.2
          ++ [Effect.engine (EngineCall.StartMotion a.group a.no a.priority s.1 f.1)] }
    else
      let f := MakeCallee ts a.onFinishHandler
      let s := MakeCallee f.2.1 a.onStartHandler
      { ret := some PyObject.None, ts := s.2.1,
        effects := f.2.2 ++ s.2.2
          ++ [Effect.engine (EngineCall.StartMotion a.group a.no a.priority s.1 f.1)] }

/-- The calls of handlers among the effects, in order: the callee and the
arguments of each `PyObject_CallFunction`. -/
def handlerCalls : List Effect → List (PyObject × List CValue)
  | [] => []
  | Effect.call callee args :: es => (callee, args) :: handlerCalls es
  | _ :: es => handlerCalls es

/-- The change of the reference count of `o` over the effects: `Py_XINCREF`
adds one, `Py_XDECREF` takes one, and a `PyObject_CallFunction` that returns
`o` hands its caller a new reference to it. -/
def refDelta (interp : PyObject → List CValue → CallOutcome) (o : PyObject) :
    List Effect → Int
  | [] => 0
  | Effect.incref p :: es => (if p = o then 1 else 0) + refDelta interp o es
  | Effect.decref p :: es => (if p = o then -1 else 0) + refDelta interp o es
  | Effect.call callee args :: es =>
    (if interp callee args = CallOutcome.returned o then 1 else 0) + refDelta interp o es
  | _ :: es => refDelta interp o es

/-- The number of calls of the engine's `Update` among the effects. -/
def engineUpdates (effects : List Effect) : Nat :=
  effects.count (Effect.engine EngineCall.Update)

/-! ## Lemmas on the fade timer -/

theorem update_idle (self : PyLAppModelObject) (now : Int) (h : self.fadeout < 0) :
    PyLAppModel_Update self now
      = { ret := some PyObject.None, self := self,
          effects := [Effect.engine EngineCall.Update] } := by
  unfold PyLAppModel_Update
  rw [if_neg (by omega)]

theorem apply_keeps_disarmed (self : PyLAppModelObject) (op : Op)
    (h : self.fadeout < 0) (hop : op.arms = false) : (op.apply self).self.fadeout < 0 := by
  cases op with
  | setExpression now e kw =>
    cases kw with
    | none => simp [Op.apply, PyLAppModel_SetExpression]
    | some d =>
      have hd : d < 0 := by simpa [Op.arms] using hop
      simp [Op.apply, PyLAppModel_SetExpression, hd]
  | resetExpression => simp [Op.apply, PyLAppModel_ResetExpression]
  | update now => simpa [Op.apply, update_idle self now h] using h

theorem run_keeps_disarmed (ops : List Op) :
    ∀ self : PyLAppModelObject, self.fadeout < 0 → (∀ op ∈ ops, op.arms = false) →
      (run self ops).fadeout < 0 := by
  induction ops with
  | nil => intro self h _; simpa [run] using h
  | cons op ops ih =>
    intro self h hops
    simp only [run]
    exact ih _ (apply_keeps_disarmed self op h (hops op (List.mem_cons_self _ _)))
      (fun o ho => hops o (List.mem_cons_of_mem _ ho))

theorem update_due (self : PyLAppModelObject) (now : Int)
    (harmed : self.fadeout ≥ 0) (hdue : now - self.expStartedAt ≥ self.fadeout) :
    PyLAppModel_Update self now
      = { ret := some PyObject.None, self := { self with fadeout := -1 },
          effects := (match self.lastExpression with
            | some e =>
              [Effect.engine (EngineCall.SetExpression e), Effect.info ("reset expression " ++ e)]
            | none =>
              [Effect.engine EngineCall.ResetExpression, Effect.info "clear expression"])
            ++ [Effect.engine EngineCall.Update] } := by
  unfold PyLAppModel_Update
  rw [if_pos harmed, if_pos hdue]

theorem update_early (self : PyLAppModelObject) (now : Int)
    (hearly : now - self.expStartedAt < self.fadeout) :
    PyLAppModel_Update self now
      = { ret := some PyObject.None, self := self,
          effects := [Effect.engine EngineCall.Update] } := by
  unfold PyLAppModel_Update
  split
  · rw [if_neg (by omega)]
  · rfl

theorem update_due_expressionCalls (self : PyLAppModelObject) (now : Int)
    (harmed : self.fadeout ≥ 0) (hdue : now - self.expStartedAt ≥ self.fadeout) :
    expressionCalls (PyLAppModel_Update self now).effects = 1 := by
  rw [update_due self now harmed hdue]
  cases self.lastExpression <;> simp [expressionCalls, Effect.isExpressionCall]

theorem set_expression_arms (self : PyLAppModelObject) (E : String) (d now : Int)
    (hd : d ≥ 0) :
    PyLAppModel_SetExpression self now (some (E, some d))
      = { ret := some PyObject.None,
          self := { lastExpression := self.lastExpression, expStartedAt := now, fadeout := d },
          effects := [Effect.engine (EngineCall.SetExpression E)] } := by
  simp [PyLAppModel_SetExpression, hd]

theorem run_append (ops1 ops2 : List Op) :
    ∀ self : PyLAppModelObject, run self (ops1 ++ ops2) = run (run self ops1) ops2 := by
  induction ops1 with
  | nil => intro self; rfl
  | cons op ops ih => intro self; simp only [List.cons_append, run]; exact ih _

theorem run_early_updates (ts : List Int) (self : PyLAppModelObject)
    (hearly : ∀ t ∈ ts, t - self.expStartedAt < self.fadeout) :
    run self (ts.map Op.update) = self := by
  induction ts with
  | nil => rfl
  | cons t ts ih =>
    simp only [List.map_cons, run, Op.apply]
    rw [update_early self t (hearly t (List.mem_cons_self _ _))]
    exact ih (fun u hu => hearly u (List.mem_cons_of_mem _ hu))

theorem firings_disarmed (ts : List Int) (self : PyLAppModelObject) (h : self.fadeout < 0) :
    firings self ts = ts.map (fun _ => false) := by
  induction ts with
  | nil => rfl
  | cons t ts ih =>
    simp only [firings, List.map_cons]
    rw [update_idle self t h]
    simp [expressionCalls, Effect.isExpressionCall, ih]

theorem firings_armed (ts : List Int) (self : PyLAppModelObject) (h : self.fadeout ≥ 0) :
    firings self ts = firstDue self.expStartedAt self.fadeout ts := by
  induction ts with
  | nil => rfl
  | cons t ts ih =>
    simp only [firings, firstDue]
    by_cases hdue : t - self.expStartedAt ≥ self.fadeout
    · rw [if_pos hdue, update_due_expressionCalls self t h hdue, update_due self t h hdue]
      rw [firings_disarmed ts _ (by show (-1 : Int) < 0; decide)]
      simp
    · rw [if_neg hdue, update_early self t (by omega), ih]
      simp [expressionCalls, Effect.isExpressionCall]

theorem count_map_false (ts : List Int) :
    ((ts.map (fun _ => false)) : List Bool).count true = 0 := by
  rw [List.count_eq_zero]
  intro h
  rcases List.mem_map.mp h with ⟨_, _, hx⟩
  cases hx

theorem firstDue_count_le_one (s d : Int) (ts : List Int) :
    (firstDue s d ts).count true ≤ 1 := by
  induction ts with
  | nil => simp [firstDue]
  | cons t ts ih =>
    simp only [firstDue]
    split
    · rw [List.count_cons, count_map_false]; simp
    · simpa using ih

theorem apply_lastExpression (self : PyLAppModelObject) (op : Op) :
    (op.apply self).self.lastExpression = fallbackAfter self.lastExpression [op] := by
  cases op with
  | setExpression now e kw =>
    cases kw with
    | none => simp [Op.apply, PyLAppModel_SetExpression, fallbackAfter]
    | some d =>
      by_cases hd : d < 0
      · have hn : ¬ (0 ≤ d) := by omega
        simp [Op.apply, PyLAppModel_SetExpression, fallbackAfter, hd, hn]
      · have hp : 0 ≤ d := by omega
        simp [Op.apply, PyLAppModel_SetExpression, fallbackAfter, hd, hp]
  | resetExpression => simp [Op.apply, PyLAppModel_ResetExpression, fallbackAfter]
  | update now =>
    simp only [Op.apply, fallbackAfter]
    by_cases harmed : self.fadeout ≥ 0
    · by_cases hdue : now - self.expStartedAt ≥ self.fadeout
      · rw [update_due self now harmed hdue]
      · rw [update_early self now (by omega)]
    · rw [update_idle self now (by omega)]

theorem fallbackAfter_cons (prev : Option String) (op : Op) (ops : List Op) :
    fallbackAfter prev (op :: ops) = fallbackAfter (fallbackAfter prev [op]) ops := by
  cases op with
  | setExpression now e kw =>
    cases kw with
    | none => simp [fallbackAfter]
    | some d => by_cases hd : d < 0 <;> simp [fallbackAfter, hd]
  | resetExpression => simp [fallbackAfter]
  | update now => simp [fallbackAfter]

theorem run_lastExpression (ops : List Op) :
    ∀ self : PyLAppModelObject,
      (run self ops).lastExpression = fallbackAfter self.lastExpression ops := by
  induction ops with
  | nil => intro self; rfl
  | cons op ops ih =>
    intro self
    rw [fallbackAfter_cons]
    simp only [run]
    rw [ih, apply_lastExpression]

theorem run_keeps_no_fallback (ops : List Op) :
    ∀ self : PyLAppModelObject, self.lastExpression = none →
      (∀ op ∈ ops, op.storesFallback = false) → (run self ops).lastExpression = none := by
  induction ops with
  | nil => intro self h _; simpa [run] using h
  | cons op ops ih =>
    intro self h hops
    simp only [run]
    refine ih _ ?_ (fun o ho => hops o (List.mem_cons_of_mem _ ho))
    have hop := hops op (List.mem_cons_self _ _)
    rw [apply_lastExpression, h]
    cases op with
    | setExpression now e kw =>
      cases kw with
      | none => simp [Op.storesFallback] at hop
      | some d =>
        have hd : ¬ d < 0 := by simpa [Op.storesFallback] using hop
        simp [fallbackAfter, hd]
    | resetExpression => simp [fallbackAfter]
    | update now => simp [fallbackAfter]

theorem tracks_apply (a : Option (Int × Int)) (self : PyLAppModelObject) (op : Op)
    (h : Tracks a self) : Tracks (activeTransition a [op]) (op.apply self).self := by
  cases op with
  | setExpression now e kw =>
    cases kw with
    | none => simp [Op.apply, PyLAppModel_SetExpression, activeTransition, Tracks]
    | some d =>
      by_cases hd : d ≥ 0
      · rw [show (Op.setExpression now e (some d)).apply self
            = PyLAppModel_SetExpression self now (some (e, some d)) from rfl,
          set_expression_arms self e d now hd]
        simp [activeTransition, Tracks, hd]
      · have hn : ¬ (0 ≤ d) := by omega
        have hlt : d < 0 := by omega
        simp [Op.apply, PyLAppModel_SetExpression, activeTransition, Tracks, hn, hlt]
  | resetExpression => simp [Op.apply, PyLAppModel_ResetExpression, activeTransition, Tracks]
  | update now =>
    cases a with
    | none =>
      have hneg : self.fadeout < 0 := h
      simp only [Op.apply, activeTransition]
      rw [update_idle self now hneg]
      exact hneg
    | some sd =>
      obtain ⟨s, d⟩ := sd
      obtain ⟨hs, hf, hd⟩ : self.expStartedAt = s ∧ self.fadeout = d ∧ d ≥ 0 := h
      simp only [Op.apply, activeTransition]
      by_cases hdue : now - s ≥ d
      · rw [if_pos hdue, update_due self now (by omega) (by omega)]
        show (-1 : Int) < 0
        decide
      · rw [if_neg hdue, update_early self now (by omega)]
        exact ⟨hs, hf, hd⟩

theorem activeTransition_cons (a : Option (Int × Int)) (op : Op) (ops : List Op) :
    activeTransition a (op :: ops) = activeTransition (activeTransition a [op]) ops := by
  cases op with
  | setExpression now e kw =>
    cases kw with
    | none => simp [activeTransition]
    | some d => by_cases hd : d ≥ 0 <;> simp [activeTransition, hd]
  | resetExpression => simp [activeTransition]
  | update now =>
    cases a with
    | none => simp [activeTransition]
    | some sd =>
      obtain ⟨s, d⟩ := sd
      by_cases hdue : now - s ≥ d <;> simp [activeTransition, hdue]

theorem tracks_run (ops : List Op) :
    ∀ (a : Option (Int × Int)) (self : PyLAppModelObject),
      Tracks a self → Tracks (activeTransition a ops) (run self ops) := by
  induction ops with
  | nil => intro a self h; exact h
  | cons op ops ih =>
    intro a self h
    rw [activeTransition_cons]
    exact ih _ _ (tracks_apply a self op h)

theorem rests_apply (a : Option (Int × Int)) (r : Int) (self : PyLAppModelObject) (op : Op)
    (ht : Tracks a self) (hr : Rests a r self) :
    Rests (activeTransition a [op]) (idleDuration r [op]) (op.apply self).self := by
  cases op with
  | setExpression now e kw =>
    cases kw with
    | none => simp [Op.apply, PyLAppModel_SetExpression, activeTransition, idleDuration, Rests]
    | some d =>
      by_cases hd : d ≥ 0
      · have hn : ¬ d < 0 := by omega
        simp [activeTransition, idleDuration, Rests, hd, hn]
      · have hn : ¬ (0 ≤ d) := by omega
        have hlt : d < 0 := by omega
        simp [Op.apply, PyLAppModel_SetExpression, activeTransition, idleDuration, Rests,
          hn, hlt]
  | resetExpression =>
    simp [Op.apply, PyLAppModel_ResetExpression, activeTransition, idleDuration, Rests]
  | update now =>
    cases a with
    | none =>
      have hneg : self.fadeout < 0 := ht
      have hrest : self.fadeout = r := hr
      simp only [Op.apply, activeTransition, idleDuration]
      rw [update_idle self now hneg]
      exact hrest
    | some sd =>
      obtain ⟨s, d⟩ := sd
      obtain ⟨hs, hf, hd⟩ : self.expStartedAt = s ∧ self.fadeout = d ∧ d ≥ 0 := ht
      have hrest : r = -1 := hr
      simp only [Op.apply, activeTransition, idleDuration]
      by_cases hdue : now - s ≥ d
      · rw [if_pos hdue, update_due self now (by omega) (by omega)]
        show (-1 : Int) = r
        omega
      · rw [if_neg hdue]
        exact hrest

theorem idleDuration_cons (r : Int) (op : Op) (ops : List Op) :
    idleDuration r (op :: ops) = idleDuration (idleDuration r [op]) ops := by
  cases op with
  | setExpression now e kw =>
    cases kw with
    | none => simp [idleDuration]
    | some d => by_cases hd : d < 0 <;> simp [idleDuration, hd]
  | resetExpression => simp [idleDuration]
  | update now => simp [idleDuration]

theorem rests_run (ops : List Op) :
    ∀ (a : Option (Int × Int)) (r : Int) (self : PyLAppModelObject),
      Tracks a self → Rests a r self →
      Rests (activeTransition a ops) (idleDuration r ops) (run self ops) := by
  induction ops with
  | nil => intro a r self _ hr; exact hr
  | cons op ops ih =>
    intro a r self ht hr
    rw [activeTransition_cons, idleDuration_cons]
    exact ih _ _ _ (tracks_apply a self op ht) (rests_apply a r self op ht hr)

/-! ## The fade timer -/

/-- C1. In a state armed with duration `fadeout ≥ 0`, an `Update` at a clock
value with `now - expStartedAt ≥ fadeout` makes exactly one expression call,
`SetExpression(lastExpression)` when a fallback is stored and `ResetExpression`
otherwise, and leaves the handle disarmed: after any further calls, none of
which is a `SetExpression` with a nonnegative `fadeout`, an `Update` at any
clock value calls only the engine's `Update` and changes nothing. -/
theorem update_fires_once_and_disarms (self : PyLAppModelObject) (now : Int)
    (harmed : self.fadeout ≥ 0) (hdue : now - self.expStartedAt ≥ self.fadeout) :
    (∀ e, self.lastExpression = some e →
        (PyLAppModel_Update self now).effects
          = [Effect.engine (EngineCall.SetExpression e), Effect.info ("reset expression " ++ e),
             Effect.engine EngineCall.Update]) ∧
    (self.lastExpression = none →
        (PyLAppModel_Update self now).effects
          = [Effect.engine EngineCall.ResetExpression, Effect.info "clear expression",
             Effect.engine EngineCall.Update]) ∧
    expressionCalls (PyLAppModel_Update self now).effects = 1 ∧
    (PyLAppModel_Update self now).self.fadeout = -1 ∧
    (PyLAppModel_Update self now).ret = some PyObject.None ∧
    ∀ ops : List Op, (∀ op ∈ ops, op.arms = false) → ∀ later : Int,
      (PyLAppModel_Update (run (PyLAppModel_Update self now).self ops) later).effects
          = [Effect.engine EngineCall.Update] ∧
      (PyLAppModel_Update (run (PyLAppModel_Update self now).self ops) later).self
          = run (PyLAppModel_Update self now).self ops := by
  have hU : PyLAppModel_Update self now
      = { ret := some PyObject.None, self := { self with fadeout := -1 },
          effects := (match self.lastExpression with
            | some e =>
              [Effect.engine (EngineCall.SetExpression e), Effect.info ("reset expression " ++ e)]
            | none =>
              [Effect.engine EngineCall.ResetExpression, Effect.info "clear expression"])
            ++ [Effect.engine EngineCall.Update] } := by
    unfold PyLAppModel_Update
    rw [if_pos harmed, if_pos hdue]
  refine ⟨?_, ?_, ?_, ?_, ?_, ?_⟩
  · intro e he
    rw [hU, he]; rfl
  · intro he
    rw [hU, he]; rfl
  · rw [hU]
    cases hl : self.lastExpression <;> simp [expressionCalls, Effect.isExpressionCall]
  · rw [hU]
  · rw [hU]
  · intro ops hops later
    have hneg : (run (PyLAppModel_Update self now).self ops).fadeout < 0 :=
      run_keeps_disarmed ops _ (by rw [hU]; show (-1 : Int) < 0; decide) hops
    rw [update_idle _ later hneg]
    exact ⟨rfl, rfl⟩

/-- A use of C1: armed at 0 for 500 with fallback "neutral", ticked at 600. -/
theorem update_fires_once_and_disarms_witness :
    (PyLAppModel_Update { lastExpression := some "neutral", expStartedAt := 0, fadeout := 500 } 600).effects
      = [Effect.engine (EngineCall.SetExpression "neutral"),
         Effect.info ("reset expression " ++ "neutral"),
         Effect.engine EngineCall.Update] :=
  (update_fires_once_and_disarms
    { lastExpression := some "neutral", expStartedAt := 0, fadeout := 500 } 600
    (by decide) (by decide)).1 "neutral" rfl

/-- C2. After `SetExpression(E, fadeout=d)` with `d ≥ 0` at clock value `s`,
an `Update` at a clock value with `now - s < d` calls only the engine's
`Update`, and leaves the handle as it was: armed, start time `s`, duration
`d`. -/
theorem update_before_due_is_idle (self : PyLAppModelObject) (E : String) (d s now : Int)
    (hd : d ≥ 0) (hearly : now - s < d) :
    (PyLAppModel_Update (PyLAppModel_SetExpression self s (some (E, some d))).self now).effects
        = [Effect.engine EngineCall.Update] ∧
    expressionCalls
        (PyLAppModel_Update (PyLAppModel_SetExpression self s (some (E, some d))).self now).effects
        = 0 ∧
    (PyLAppModel_Update (PyLAppModel_SetExpression self s (some (E, some d))).self now).self
        = (PyLAppModel_SetExpression self s (some (E, some d))).self ∧
    (PyLAppModel_Update (PyLAppModel_SetExpression self s (some (E, some d))).self now).self.fadeout
        = d ∧
    (PyLAppModel_Update
        (PyLAppModel_SetExpression self s (some (E, some d))).self now).self.expStartedAt
        = s := by
  have hS : (PyLAppModel_SetExpression self s (some (E, some d))).self
      = { lastExpression := self.lastExpression, expStartedAt := s, fadeout := d } := by
    simp [PyLAppModel_SetExpression, hd]
  have hU : PyLAppModel_Update
        { lastExpression := self.lastExpression, expStartedAt := s, fadeout := d } now
      = { ret := some PyObject.None,
          self := { lastExpression := self.lastExpression, expStartedAt := s, fadeout := d },
          effects := [Effect.engine EngineCall.Update] } := by
    unfold PyLAppModel_Update
    rw [if_pos (show (d : Int) ≥ 0 from hd), if_neg (by show ¬ (now - s ≥ d); omega)]
  rw [hS, hU]
  exact ⟨rfl, rfl, rfl, rfl, rfl⟩

/-- A use of C2: "angry" armed for 500 at 0, ticked at 200. -/
theorem update_before_due_is_idle_witness :
    (PyLAppModel_Update
        (PyLAppModel_SetExpression PyLAppModel_init 0 (some ("angry", some 500))).self 200).effects
      = [Effect.engine EngineCall.Update] :=
  (update_before_due_is_idle PyLAppModel_init "angry" 500 0 200 (by decide) (by decide)).1

/-- C9. `SetExpression(E)` with no `fadeout` or a negative one calls the
engine's `SetExpression(E)` once and nothing else, stores `E` as the fallback
and leaves the handle disarmed whatever it was before: after any further
calls, none of which is a `SetExpression` with a nonnegative `fadeout`, an
`Update` at any clock value calls only the engine's `Update`. -/
theorem set_expression_without_duration (self : PyLAppModelObject) (E : String)
    (kw : Option Int) (now : Int) (hkw : ∀ d, kw = some d → d < 0) :
    (PyLAppModel_SetExpression self now (some (E, kw))).effects
        = [Effect.engine (EngineCall.SetExpression E)] ∧
    (PyLAppModel_SetExpression self now (some (E, kw))).self.lastExpression = some E ∧
    (PyLAppModel_SetExpression self now (some (E, kw))).self.fadeout < 0 ∧
    (PyLAppModel_SetExpression self now (some (E, kw))).ret = some PyObject.None ∧
    ∀ ops : List Op, (∀ op ∈ ops, op.arms = false) → ∀ later : Int,
      (PyLAppModel_Update
          (run (PyLAppModel_SetExpression self now (some (E, kw))).self ops) later).effects
        = [Effect.engine EngineCall.Update] := by
  have hneg : kw.getD (-1) < 0 := by
    cases kw with
    | none => simp
    | some d => simpa using hkw d rfl
  have hS : (PyLAppModel_SetExpression self now (some (E, kw))).self
      = { lastExpression := some E, expStartedAt := self.expStartedAt,
          fadeout := kw.getD (-1) } := by
    have hn : ¬ (0 ≤ kw.getD (-1)) := by omega
    simp [PyLAppModel_SetExpression, hn]
  refine ⟨rfl, ?_, ?_, rfl, ?_⟩
  · rw [hS]
  · rw [hS]; exact hneg
  · intro ops hops later
    have h := run_keeps_disarmed ops _ (show (PyLAppModel_SetExpression self now
      (some (E, kw))).self.fadeout < 0 by rw [hS]; exact hneg) hops
    rw [update_idle _ later h]

/-- A use of C9: "neutral" set without a duration on a handle armed at 0 for
500; an `Update` at 600 then reverses nothing. -/
theorem set_expression_without_duration_witness :
    (PyLAppModel_Update
        (run (PyLAppModel_SetExpression
          { lastExpression := none, expStartedAt := 0, fadeout := 500 } 100
          (some ("neutral", none))).self []) 600).effects
      = [Effect.engine EngineCall.Update] :=
  (set_expression_without_duration
      { lastExpression := none, expStartedAt := 0, fadeout := 500 } "neutral" none 100
      (by intro d h; cases h)).2.2.2.2 [] (by intro op h; cases h) 600

/-- C6. `ResetExpression` calls the engine's `ResetExpression`, disarms the
handle and drops the fallback, whatever the state before.  After any further
calls, none of which is a `SetExpression` without a nonnegative `fadeout`, the
fallback is still absent and an `Update` that finds the handle armed and due
goes down the clear path: `ResetExpression`, never `SetExpression`.  So does
the `Update` that is due after `SetExpression(E, fadeout=d)`, `d ≥ 0`, and any
number of `Update` calls that were not. -/
theorem reset_expression_drops_fallback (self : PyLAppModelObject) :
    (PyLAppModel_ResetExpression self).effects = [Effect.engine EngineCall.ResetExpression] ∧
    (PyLAppModel_ResetExpression self).self.fadeout = -1 ∧
    (PyLAppModel_ResetExpression self).self.lastExpression = none ∧
    (∀ ops : List Op, (∀ op ∈ ops, op.storesFallback = false) →
      (run (PyLAppModel_ResetExpression self).self ops).lastExpression = none ∧
      ∀ now : Int,
        (run (PyLAppModel_ResetExpression self).self ops).fadeout ≥ 0 →
        now - (run (PyLAppModel_ResetExpression self).self ops).expStartedAt
          ≥ (run (PyLAppModel_ResetExpression self).self ops).fadeout →
        (PyLAppModel_Update (run (PyLAppModel_ResetExpression self).self ops) now).effects
          = [Effect.engine EngineCall.ResetExpression, Effect.info "clear expression",
             Effect.engine EngineCall.Update]) ∧
    (∀ (E : String) (d s : Int), d ≥ 0 →
      ∀ early : List Int, (∀ t ∈ early, t - s < d) →
      ∀ now : Int, now - s ≥ d →
        (PyLAppModel_Update
            (run (PyLAppModel_ResetExpression self).self
              (Op.setExpression s E (some d) :: early.map Op.update)) now).effects
          = [Effect.engine EngineCall.ResetExpression, Effect.info "clear expression",
             Effect.engine EngineCall.Update]) := by
  have hgen : ∀ ops : List Op, (∀ op ∈ ops, op.storesFallback = false) →
      (run (PyLAppModel_ResetExpression self).self ops).lastExpression = none ∧
      ∀ now : Int,
        (run (PyLAppModel_ResetExpression self).self ops).fadeout ≥ 0 →
        now - (run (PyLAppModel_ResetExpression self).self ops).expStartedAt
          ≥ (run (PyLAppModel_ResetExpression self).self ops).fadeout →
        (PyLAppModel_Update (run (PyLAppModel_ResetExpression self).self ops) now).effects
          = [Effect.engine EngineCall.ResetExpression, Effect.info "clear expression",
             Effect.engine EngineCall.Update] := by
    intro ops hops
    have hnone := run_keeps_no_fallback ops (PyLAppModel_ResetExpression self).self rfl hops
    refine ⟨hnone, ?_⟩
    intro now harmed hdue
    rw [update_due _ now harmed hdue, hnone]
    rfl
  refine ⟨rfl, rfl, rfl, hgen, ?_⟩
  intro E d s hd early hearly now hdue
  have hst : run (PyLAppModel_ResetExpression self).self
        (Op.setExpression s E (some d) :: early.map Op.update)
      = { lastExpression := none, expStartedAt := s, fadeout := d } := by
    simp only [run]
    rw [show (Op.setExpression s E (some d)).apply (PyLAppModel_ResetExpression self).self
          = PyLAppModel_SetExpression (PyLAppModel_ResetExpression self).self s
              (some (E, some d)) from rfl,
      set_expression_arms _ E d s hd]
    exact run_early_updates early _ hearly
  rw [hst, update_due _ now hd hdue]
  rfl

/-- A use of C6: a handle with fallback "neutral" armed at 0 for 300 is reset,
"angry" is armed for 500 at 1000 and ticked at 1200; the tick at 1600 clears. -/
theorem reset_expression_drops_fallback_witness :
    (PyLAppModel_Update
        (run (PyLAppModel_ResetExpression
            { lastExpression := some "neutral", expStartedAt := 0, fadeout := 300 }).self
          (Op.setExpression 1000 "angry" (some 500) :: [1200].map Op.update)) 1600).effects
      = [Effect.engine EngineCall.ResetExpression, Effect.info "clear expression",
         Effect.engine EngineCall.Update] :=
  (reset_expression_drops_fallback
      { lastExpression := some "neutral", expStartedAt := 0, fadeout := 300 }).2.2.2.2
    "angry" 500 1000 (by decide) [1200] (by decide) 1600 (by decide)

/-- C7. Two arms, `SetExpression(E1, fadeout=d1)` at `s1` and then
`SetExpression(E2, fadeout=d2)` at `s2`, with only `Update` calls that are not
due in between, leave the handle as the second arm alone would: start `s2`,
duration `d2`, the fallback untouched.  Of the `Update` calls that follow, the
first at a clock value with `now - s2 ≥ d2` fires and no other does, so at
most one fires; an `Update` with `now - s2 < d2` does not fire, wherever `now`
stands to `s1` and `d1`. -/
theorem second_arm_supersedes (self : PyLAppModelObject) (E1 E2 : String)
    (d1 s1 d2 s2 : Int) (hd1 : d1 ≥ 0) (hd2 : d2 ≥ 0)
    (between : List Int) (hbetween : ∀ t ∈ between, t - s1 < d1) :
    ∀ st : PyLAppModelObject,
      st = run self (Op.setExpression s1 E1 (some d1)
              :: (between.map Op.update ++ [Op.setExpression s2 E2 (some d2)])) →
      st = { lastExpression := self.lastExpression, expStartedAt := s2, fadeout := d2 } ∧
      st = (PyLAppModel_SetExpression self s2 (some (E2, some d2))).self ∧
      (∀ ts : List Int, firings st ts = firstDue s2 d2 ts ∧ (firings st ts).count true ≤ 1) ∧
      (∀ now : Int, now - s2 < d2 →
        (PyLAppModel_Update st now).effects = [Effect.engine EngineCall.Update] ∧
        (PyLAppModel_Update st now).self = st) ∧
      (∀ now : Int, now - s2 ≥ d2 →
        expressionCalls (PyLAppModel_Update st now).effects = 1) := by
  intro st hst
  have h1 : st = { lastExpression := self.lastExpression, expStartedAt := s2, fadeout := d2 } := by
    rw [hst]
    simp only [run]
    rw [show (Op.setExpression s1 E1 (some d1)).apply self
          = PyLAppModel_SetExpression self s1 (some (E1, some d1)) from rfl,
      set_expression_arms self E1 d1 s1 hd1, run_append,
      run_early_updates between _ hbetween]
    simp only [run]
    rw [show (Op.setExpression s2 E2 (some d2)).apply
            { lastExpression := self.lastExpression, expStartedAt := s1, fadeout := d1 }
          = PyLAppModel_SetExpression
              { lastExpression := self.lastExpression, expStartedAt := s1, fadeout := d1 }
              s2 (some (E2, some d2)) from rfl,
      set_expression_arms _ E2 d2 s2 hd2]
  refine ⟨h1, ?_, ?_, ?_, ?_⟩
  · rw [h1, set_expression_arms self E2 d2 s2 hd2]
  · intro ts
    have hf : firings st ts = firstDue s2 d2 ts := by
      rw [h1]
      exact firings_armed ts _ hd2
    exact ⟨hf, by rw [hf]; exact firstDue_count_le_one s2 d2 ts⟩
  · intro now hearly
    rw [h1, update_early _ now hearly]
    exact ⟨rfl, rfl⟩
  · intro now hdue
    rw [h1]
    exact update_due_expressionCalls _ now hd2 hdue

/-- A use of C7: "angry" armed for 100 at 0 and ticked at 20, "sad" armed for
500 at 50; of the ticks at 200, 600 and 900 only the one at 600 fires. -/
theorem second_arm_supersedes_witness :
    firings (run PyLAppModel_init (Op.setExpression 0 "angry" (some 100)
        :: ([20].map Op.update ++ [Op.setExpression 50 "sad" (some 500)])))
      [200, 600, 900] = firstDue 50 500 [200, 600, 900] :=
  ((second_arm_supersedes PyLAppModel_init "angry" "sad" 100 0 500 50 (by decide) (by decide)
      [20] (by decide) _ rfl).2.2.1 [200, 600, 900]).1

/-- C10. `SetExpression(E, fadeout=d)` with `d ≥ 0` at clock value `now` calls
the engine's `SetExpression(E)` once and nothing else, stores `now` as the
start time and `d` as the duration, and leaves the fallback as it was; on a
handle brought from construction through any calls, that fallback is the id of
the latest `SetExpression` without a nonnegative `fadeout` that no
`ResetExpression` followed, and absent when there is none. -/
theorem set_expression_with_duration (self : PyLAppModelObject) (E : String) (d now : Int)
    (hd : d ≥ 0) :
    (PyLAppModel_SetExpression self now (some (E, some d))).effects
        = [Effect.engine (EngineCall.SetExpression E)] ∧
    (PyLAppModel_SetExpression self now (some (E, some d))).self.expStartedAt = now ∧
    (PyLAppModel_SetExpression self now (some (E, some d))).self.fadeout = d ∧
    (PyLAppModel_SetExpression self now (some (E, some d))).self.lastExpression
        = self.lastExpression ∧
    (PyLAppModel_SetExpression self now (some (E, some d))).ret = some PyObject.None ∧
    ∀ history : List Op,
      (PyLAppModel_SetExpression (run PyLAppModel_init history) now
          (some (E, some d))).self.lastExpression
        = fallbackAfter none history := by
  refine ⟨?_, ?_, ?_, ?_, ?_, ?_⟩
  · rw [set_expression_arms self E d now hd]
  · rw [set_expression_arms self E d now hd]
  · rw [set_expression_arms self E d now hd]
  · rw [set_expression_arms self E d now hd]
  · rw [set_expression_arms self E d now hd]
  · intro history
    rw [set_expression_arms _ E d now hd]
    exact run_lastExpression history PyLAppModel_init

/-- A use of C10: "angry" armed for 500 at 1000 on a handle with fallback
"neutral". -/
theorem set_expression_with_duration_witness :
    (PyLAppModel_SetExpression
        { lastExpression := some "neutral", expStartedAt := -1, fadeout := -1 } 1000
        (some ("angry", some 500))).self
      = { lastExpression := some "neutral", expStartedAt := 1000, fadeout := 500 } := by
  have h := set_expression_with_duration
    { lastExpression := some "neutral", expStartedAt := -1, fadeout := -1 } "angry" 500 1000
    (by decide)
  exact (PyLAppModelObject.mk.injEq _ _ _ _ _ _).mpr ⟨h.2.2.2.1, h.2.1, h.2.2.1⟩

/-- C8, as the code has it.  On a handle brought from construction through any
`SetExpression`, `ResetExpression` and `Update` calls, a transition is active
exactly when the stored duration is nonnegative; while one is active the
handle holds the clock value of its arming and its duration; while none is
the stored duration is negative, and it is the negative `fadeout` given to the
latest call other than `Update` when that call is a `SetExpression` with one,
and -1 otherwise.  A negative `fadeout` given to `SetExpression` is stored as
it is given. -/
theorem active_iff_duration_nonneg (ops : List Op) :
    ((activeTransition none ops).isSome = true ↔ (run PyLAppModel_init ops).fadeout ≥ 0) ∧
    (activeTransition none ops = none → (run PyLAppModel_init ops).fadeout < 0) ∧
    (∀ s d : Int, activeTransition none ops = some (s, d) →
      (run PyLAppModel_init ops).expStartedAt = s ∧ (run PyLAppModel_init ops).fadeout = d) ∧
    (activeTransition none ops = none →
      (run PyLAppModel_init ops).fadeout = idleDuration (-1) ops) ∧
    (∀ (now : Int) (E : String) (d : Int), d < 0 →
      (run PyLAppModel_init (ops ++ [Op.setExpression now E (some d)])).fadeout = d) := by
  have h : Tracks (activeTransition none ops) (run PyLAppModel_init ops) :=
    tracks_run ops none PyLAppModel_init (by show (-1 : Int) < 0; decide)
  have hrest : Rests (activeTransition none ops) (idleDuration (-1) ops)
      (run PyLAppModel_init ops) :=
    rests_run ops none (-1) PyLAppModel_init (by show (-1 : Int) < 0; decide) rfl
  have hgiven : ∀ (now : Int) (E : String) (d : Int), d < 0 →
      (run PyLAppModel_init (ops ++ [Op.setExpression now E (some d)])).fadeout = d := by
    intro now E d hd
    have hn : ¬ (0 ≤ d) := by omega
    rw [run_append]
    simp [run, Op.apply, PyLAppModel_SetExpression, hn]
  cases hact : activeTransition none ops with
  | none =>
    rw [hact] at h hrest
    have hneg : (run PyLAppModel_init ops).fadeout < 0 := h
    have hidle : (run PyLAppModel_init ops).fadeout = idleDuration (-1) ops := hrest
    refine ⟨?_, fun _ => hneg, ?_, fun _ => hidle, hgiven⟩
    · constructor
      · intro hc; cases hc
      · intro hc; omega
    · intro s d hc; cases hc
  | some sd =>
    obtain ⟨s, d⟩ := sd
    rw [hact] at h
    obtain ⟨hs, hf, hd⟩ : (run PyLAppModel_init ops).expStartedAt = s
        ∧ (run PyLAppModel_init ops).fadeout = d ∧ d ≥ 0 := h
    refine ⟨?_, ?_, ?_, ?_, hgiven⟩
    · constructor
      · intro _; omega
      · intro _; rfl
    · intro hc; cases hc
    · intro s2 d2 hc
      cases hc
      exact ⟨hs, hf⟩
    · intro hc; cases hc

/-- A use of C8 as the code has it: "angry" armed for 500 at 1000 and consumed
at 1600, then "sad" set with `fadeout=-7` at 2000 and a tick at 2100: no
transition is active and the stored duration is the -7 that was given. -/
theorem active_iff_duration_nonneg_witness :
    activeTransition none
        [Op.setExpression 1000 "angry" (some 500), Op.update 1600,
         Op.setExpression 2000 "sad" (some (-7)), Op.update 2100] = none ∧
    (run PyLAppModel_init
        [Op.setExpression 1000 "angry" (some 500), Op.update 1600,
         Op.setExpression 2000 "sad" (some (-7)), Op.update 2100]).fadeout
      = idleDuration (-1)
          [Op.setExpression 1000 "angry" (some 500), Op.update 1600,
           Op.setExpression 2000 "sad" (some (-7)), Op.update 2100] ∧
    idleDuration (-1)
        [Op.setExpression 1000 "angry" (some 500), Op.update 1600,
         Op.setExpression 2000 "sad" (some (-7)), Op.update 2100] = -7 :=
  ⟨by decide,
   (active_iff_duration_nonneg
      [Op.setExpression 1000 "angry" (some 500), Op.update 1600,
       Op.setExpression 2000 "sad" (some (-7)), Op.update 2100]).2.2.2.1 (by decide),
   by decide⟩

/-- C8 as stated fails.  After `SetExpression("angry", fadeout=-5)` no transition
is active and the stored duration is -5; after `SetExpression("angry",
fadeout=0)` at 5 and the `Update` at 5 that consumes it, none is active and the
stored start time is still 5. -/
theorem inactive_fields_not_minus_one :
    (activeTransition none [Op.setExpression 0 "angry" (some (-5))] = none ∧
      (run PyLAppModel_init [Op.setExpression 0 "angry" (some (-5))]).fadeout = -5) ∧
    (activeTransition none [Op.setExpression 5 "angry" (some 0), Op.update 5] = none ∧
      (run PyLAppModel_init [Op.setExpression 5 "angry" (some 0), Op.update 5]).fadeout = -1 ∧
      (run PyLAppModel_init [Op.setExpression 5 "angry" (some 0), Op.update 5]).expStartedAt
        = 5) := by
  decide

/-- Whatever the handlers are, a `StartMotion` whose arguments parsed returns
`None` and has called the engine's `StartMotion`. -/
theorem start_motion_always_calls_engine (ts : PyThreadState) (startFirst : Bool)
    (a : StartMotionArgs) :
    (PyLAppModel_StartMotion ts startFirst (Except.ok a)).ret = some PyObject.None ∧
    ∃ s f : Option PyObject,
      Effect.engine (EngineCall.StartMotion a.group a.no a.priority s f)
        ∈ (PyLAppModel_StartMotion ts startFirst (Except.ok a)).effects := by
  cases startFirst
  · exact ⟨rfl, _, _, List.mem_append_right _ (List.mem_singleton.mpr rfl)⟩
  · exact ⟨rfl, _, _, List.mem_append_right _ (List.mem_singleton.mpr rfl)⟩

/-- C3, on the code: `StartMotion("Idle", 0, 1, onStartMotionHandler=42)`.
`MakeCallee` raises the `TypeError` and returns `nullptr`; `StartMotion` does
not look, calls the engine's `StartMotion` with no callee and returns `None`
with the error pending, in either order of evaluation. -/
theorem start_motion_ignores_rejected_handler (startFirst : Bool) :
    PyLAppModel_StartMotion { curexc := none } startFirst
        (Except.ok { group := "Idle", no := 0, priority := 1,
                     onStartHandler := some (PyObject.Long 42), onFinishHandler := none })
      = { ret := some PyObject.None,
          ts := { curexc := some (PyErr.fromSetString PyExc.TypeError
                    "handler must be callable or None") },
          effects := [Effect.engine (EngineCall.StartMotion "Idle" 0 1 none none)] } := by
  cases startFirst <;> decide

/-- C4, as the code has it.  When the call of the finish handler `H` raises,
`OnMotionFinishedCallback` takes the GIL state, calls `H` once with no
arguments, drops its reference to `H`, releases the GIL state and returns: it
logs nothing and the error the handler raised stays pending.  The same for
`OnMotionStartedCallback` and a start handler, called with the group and the
index. -/
theorem failing_handler_error_stays_pending
    (interp : PyObject → List CValue → CallOutcome) (ts : PyThreadState)
    (motion : ACubismMotion) (H : PyObject) (err : PyErr) :
    (motion.onFinishedCallee = some H → interp H [] = CallOutcome.raised err →
      OnMotionFinishedCallback interp ts motion
        = ({ curexc := some err },
           [Effect.gilEnsure, Effect.call H [], Effect.decref H, Effect.gilRelease])) ∧
    (motion.onStartedCallee = some H →
      interp H [CValue.str motion.group, CValue.int motion.no] = CallOutcome.raised err →
      OnMotionStartedCallback interp ts motion
        = ({ curexc := some err },
           [Effect.gilEnsure,
            Effect.call H [CValue.str motion.group, CValue.int motion.no],
            Effect.decref H, Effect.gilRelease])) := by
  constructor
  · intro hH hraise
    simp [OnMotionFinishedCallback, PyObject_CallFunction, Py_XDECREF, hH, hraise]
  · intro hH hraise
    simp [OnMotionStartedCallback, PyObject_CallFunction, Py_XDECREF, hH, hraise]

/-- A use of C4 as the code has it: the finish handler `Callable 1` of a motion
of group "Idle" raises. -/
theorem failing_handler_error_stays_pending_witness :
    OnMotionFinishedCallback (fun _ _ => CallOutcome.raised (PyErr.fromHandler 7))
        { curexc := none }
        { onStartedCallee := none, onFinishedCallee := some (PyObject.Callable 1),
          group := "Idle", no := 0 }
      = ({ curexc := some (PyErr.fromHandler 7) },
         [Effect.gilEnsure, Effect.call (PyObject.Callable 1) [],
          Effect.decref (PyObject.Callable 1), Effect.gilRelease]) :=
  (failing_handler_error_stays_pending (fun _ _ => CallOutcome.raised (PyErr.fromHandler 7))
      { curexc := none }
      { onStartedCallee := none, onFinishedCallee := some (PyObject.Callable 1),
        group := "Idle", no := 0 }
      (PyObject.Callable 1) (PyErr.fromHandler 7)).1 rfl rfl

/-- C4 as stated fails.  With a finish handler, and with a start handler, whose
call raises on a thread with no error pending, the trampoline returns with the
handler's error pending and with no log call among its effects. -/
theorem failing_handler_not_caught_nor_logged :
    ((OnMotionFinishedCallback (fun _ _ => CallOutcome.raised (PyErr.fromHandler 7))
        { curexc := none }
        { onStartedCallee := none, onFinishedCallee := some (PyObject.Callable 1),
          group := "Idle", no := 0 }).1.curexc = some (PyErr.fromHandler 7) ∧
      ∀ msg, Effect.info msg ∉
        (OnMotionFinishedCallback (fun _ _ => CallOutcome.raised (PyErr.fromHandler 7))
          { curexc := none }
          { onStartedCallee := none, onFinishedCallee := some (PyObject.Callable 1),
            group := "Idle", no := 0 }).2) ∧
    ((OnMotionStartedCallback (fun _ _ => CallOutcome.raised (PyErr.fromHandler 7))
        { curexc := none }
        { onStartedCallee := some (PyObject.Callable 2), onFinishedCallee := none,
          group := "Idle", no := 0 }).1.curexc = some (PyErr.fromHandler 7) ∧
      ∀ msg, Effect.info msg ∉
        (OnMotionStartedCallback (fun _ _ => CallOutcome.raised (PyErr.fromHandler 7))
          { curexc := none }
          { onStartedCallee := some (PyObject.Callable 2), onFinishedCallee := none,
            group := "Idle", no := 0 }).2) := by
  refine ⟨⟨rfl, ?_⟩, ⟨rfl, ?_⟩⟩
  · intro msg
    simp [OnMotionFinishedCallback, PyObject_CallFunction, Py_XDECREF]
  · intro msg
    simp [OnMotionStartedCallback, PyObject_CallFunction, Py_XDECREF]

/-- The return value of `PyArg_ParseTuple` is 0 or 1, never negative. -/
theorem convertArgs_rc (ts : PyThreadState) (format : List FormatUnit) :
    ∀ (args : List PyObject) (done : List (Option CValue)),
      (convertArgs ts format args done).rc = 0 ∨ (convertArgs ts format args done).rc = 1 := by
  induction format with
  | nil => intro args done; right; simp [convertArgs]
  | cons u us ih =>
    intro args done
    cases args with
    | nil => right; simp [convertArgs]
    | cons a as =>
      simp only [convertArgs]
      cases convertItem u a with
      | error exc => left; rfl
      | ok v => exact ih as _

theorem PyArg_ParseTuple_rc (ts : PyThreadState) (args : List PyObject)
    (format : List FormatUnit) :
    (PyArg_ParseTuple ts args format).rc = 0 ∨ (PyArg_ParseTuple ts args format).rc = 1 := by
  unfold PyArg_ParseTuple
  split
  · left; rfl
  · exact convertArgs_rc ts format args []

/-- The sibling that tests with `!`: when the parse fails, `Resize` returns
`NULL` with a `TypeError` pending and does not call the engine. -/
theorem resize_rejects_failed_parse (ts : PyThreadState) (args : List PyObject)
    (hfail : (PyArg_ParseTuple ts args [FormatUnit.i, FormatUnit.i]).rc = 0) :
    PyLAppModel_Resize ts args
      = { ret := none,
          ts := { curexc := some (PyErr.fromSetString PyExc.TypeError "invalid params.") },
          effects := [] } := by
  simp [PyLAppModel_Resize, hfail, PyErr_SetString]

/-- Whatever the arguments, `SetParameterValue` never takes its error branch:
it calls the engine and returns `None`. -/
theorem set_parameter_value_always_calls_engine (ts : PyThreadState) (args : List PyObject) :
    (PyLAppModel_SetParameterValue ts args).ret = some PyObject.None ∧
    (PyLAppModel_SetParameterValue ts args).effects
      = [Effect.engine (EngineCall.SetParameterValue
          (PyArg_ParseTuple ts args [FormatUnit.s, FormatUnit.f, FormatUnit.f]).slots)] := by
  have hrc := PyArg_ParseTuple_rc ts args [FormatUnit.s, FormatUnit.f, FormatUnit.f]
  have hn : ¬ ((PyArg_ParseTuple ts args [FormatUnit.s, FormatUnit.f, FormatUnit.f]).rc < 0) := by
    omega
  simp [PyLAppModel_SetParameterValue, hn]

/-- C5, on the code: called with no arguments, and `SetParameterValue` also
with an `int` where the `str` belongs, each of the nine setters finds the
parser's 0 not below 0, calls the engine with locals that were never written
and returns `None` with the parser's error pending. -/
theorem setters_call_engine_after_failed_parse :
    PyLAppModel_SetParameterValue { curexc := none } []
      = { ret := some PyObject.None,
          ts := { curexc := some (PyErr.fromParser PyExc.TypeError) },
          effects := [Effect.engine (EngineCall.SetParameterValue [none, none, none])] } ∧
    PyLAppModel_SetParameterValue { curexc := none }
        [PyObject.Long 1, PyObject.Float 0, PyObject.Float 0]
      = { ret := some PyObject.None,
          ts := { curexc := some (PyErr.fromParser PyExc.TypeError) },
          effects := [Effect.engine (EngineCall.SetParameterValue [none, none, none])] } ∧
    (PyLAppModel_SetOffset { curexc := none } []).effects
      = [Effect.engine (EngineCall.SetOffset [none, none])] ∧
    (PyLAppModel_SetScale { curexc := none } []).effects
      = [Effect.engine (EngineCall.SetScale [none])] ∧
    (PyLAppModel_AddParameterValue { curexc := none } []).effects
      = [Effect.engine (EngineCall.AddParameterValue [none, none])] ∧
    (PyLAppModel_SetPartOpacity { curexc := none } []).effects
      = [Effect.engine (EngineCall.SetPartOpacity [none, none])] ∧
    (PyLAppModel_SetPartMultiplyColor { curexc := none } []).effects
      = [Effect.engine (EngineCall.SetPartMultiplyColor [none, none, none, none, none])] ∧
    (PyLAppModel_SetPartScreenColor { curexc := none } []).effects
      = [Effect.engine (EngineCall.SetPartScreenColor [none, none, none, none, none])] ∧
    (PyLAppModel_SetAutoBreathEnable { curexc := none } []).effects
      = [Effect.engine (EngineCall.SetAutoBreathEnable [none])] ∧
    (PyLAppModel_SetAutoBlinkEnable { curexc := none } []).effects
      = [Effect.engine (EngineCall.SetAutoBlinkEnable [none])] := by
  decide

/-- C12. Every `Update`, in every state and at every clock value, calls the
engine's `Update` exactly once and as the last thing it does: its effects are
some effects with no engine `Update` among them, which hold every
`SetExpression`/`ResetExpression` call it makes, and then the engine's
`Update`. -/
theorem update_always_delegates_last (self : PyLAppModelObject) (now : Int) :
    engineUpdates (PyLAppModel_Update self now).effects = 1 ∧
    ∃ before : List Effect,
      (PyLAppModel_Update self now).effects = before ++ [Effect.engine EngineCall.Update] ∧
      engineUpdates before = 0 ∧
      expressionCalls before = expressionCalls (PyLAppModel_Update self now).effects := by
  by_cases harmed : self.fadeout ≥ 0
  · by_cases hdue : now - self.expStartedAt ≥ self.fadeout
    · rw [update_due self now harmed hdue]
      cases self.lastExpression with
      | none =>
        refine ⟨?_, [Effect.engine EngineCall.ResetExpression,
          Effect.info "clear expression"], rfl, ?_, ?_⟩
        · simp [engineUpdates]
        · simp [engineUpdates]
        · simp [expressionCalls, Effect.isExpressionCall]
      | some e =>
        refine ⟨?_, [Effect.engine (EngineCall.SetExpression e),
          Effect.info ("reset expression " ++ e)], rfl, ?_, ?_⟩
        · simp [engineUpdates]
        · simp [engineUpdates]
        · simp [expressionCalls, Effect.isExpressionCall]
    · rw [update_early self now (by omega)]
      refine ⟨?_, [], rfl, ?_, ?_⟩
      · simp [engineUpdates]
      · simp [engineUpdates]
      · simp [expressionCalls, Effect.isExpressionCall]
  · rw [update_idle self now (by omega)]
    refine ⟨?_, [], rfl, ?_, ?_⟩
    · simp [engineUpdates]
    · simp [engineUpdates]
    · simp [expressionCalls, Effect.isExpressionCall]

/-- C11. With the on-start callee absent `OnMotionStartedCallback` does nothing
at all: no handler is called, no reference count changes, the thread state is
as it was; likewise `OnMotionFinishedCallback` with the on-finish callee
absent.  `MakeCallee` on an absent handler and on `None` returns `nullptr` and
takes no reference. -/
theorem absent_handler_is_untouched (interp : PyObject → List CValue → CallOutcome)
    (ts : PyThreadState) (motion : ACubismMotion) :
    (motion.onStartedCallee = none →
      OnMotionStartedCallback interp ts motion = (ts, []) ∧
      handlerCalls (OnMotionStartedCallback interp ts motion).2 = [] ∧
      ∀ o : PyObject, refDelta interp o (OnMotionStartedCallback interp ts motion).2 = 0) ∧
    (motion.onFinishedCallee = none →
      OnMotionFinishedCallback interp ts motion = (ts, []) ∧
      handlerCalls (OnMotionFinishedCallback interp ts motion).2 = [] ∧
      ∀ o : PyObject, refDelta interp o (OnMotionFinishedCallback interp ts motion).2 = 0) ∧
    MakeCallee ts none = (none, ts, []) ∧
    MakeCallee ts (some PyObject.None) = (none, ts, []) := by
  refine ⟨?_, ?_, rfl, rfl⟩
  · intro habsent
    have h : OnMotionStartedCallback interp ts motion = (ts, []) := by
      simp [OnMotionStartedCallback, habsent]
    rw [h]
    exact ⟨rfl, rfl, fun _ => rfl⟩
  · intro habsent
    have h : OnMotionFinishedCallback interp ts motion = (ts, []) := by
      simp [OnMotionFinishedCallback, habsent]
    rw [h]
    exact ⟨rfl, rfl, fun _ => rfl⟩

/-- A use of C11: a motion of group "Idle" with neither callee. -/
theorem absent_handler_is_untouched_witness :
    OnMotionStartedCallback (fun _ _ => CallOutcome.returned PyObject.None) { curexc := none }
        { onStartedCallee := none, onFinishedCallee := none, group := "Idle", no := 0 }
      = ({ curexc := none }, []) :=
  ((absent_handler_is_untouched (fun _ _ => CallOutcome.returned PyObject.None)
      { curexc := none }
      { onStartedCallee := none, onFinishedCallee := none, group := "Idle", no := 0 }).1 rfl).1

theorem fire_effects (interp : PyObject → List CValue → CallOutcome) (ts : PyThreadState)
    (h : PyObject) (args : List CValue) :
    ∃ effects : List Effect,
      ((PyObject_CallFunction interp ts h args).2,
        [Effect.gilEnsure, Effect.call h args]
          ++ (if (PyObject_CallFunction interp ts h args).1 ≠ none
              then Py_XDECREF (PyObject_CallFunction interp ts h args).1 else [])
          ++ Py_XDECREF (some h) ++ [Effect.gilRelease])
        = ((PyObject_CallFunction interp ts h args).2, effects) ∧
      handlerCalls effects = [(h, args)] ∧
      refDelta interp h effects = -1 ∧
      (∀ o : PyObject, o ≠ h → refDelta interp o effects = 0) ∧
      (∀ r : PyObject, interp h args = CallOutcome.returned r →
        effects = [Effect.gilEnsure, Effect.call h args, Effect.decref r, Effect.decref h,
                   Effect.gilRelease]) ∧
      (∀ err : PyErr, interp h args = CallOutcome.raised err →
        effects = [Effect.gilEnsure, Effect.call h args, Effect.decref h,
                   Effect.gilRelease]) := by
  cases hcall : interp h args with
  | returned r =>
    refine ⟨[Effect.gilEnsure, Effect.call h args, Effect.decref r, Effect.decref h,
      Effect.gilRelease], ?_, rfl, ?_, ?_, ?_, ?_⟩
    · simp [PyObject_CallFunction, Py_XDECREF, hcall]
    · by_cases hr : r = h
      · simp [refDelta, hcall, hr]
      · simp [refDelta, hcall, hr]
    · intro o ho
      have ho2 : ¬ h = o := fun e => ho e.symm
      by_cases hr : r = o
      · simp [refDelta, hcall, hr, ho2]
      · simp [refDelta, hcall, hr, ho2]
    · intro r2 h2
      cases h2
      rfl
    · intro err h2
      cases h2
  | raised e =>
    refine ⟨[Effect.gilEnsure, Effect.call h args, Effect.decref h, Effect.gilRelease],
      ?_, rfl, ?_, ?_, ?_, ?_⟩
    · simp [PyObject_CallFunction, Py_XDECREF, hcall]
    · simp [refDelta, hcall]
    · intro o ho
      have ho2 : ¬ h = o := fun e => ho e.symm
      simp [refDelta, hcall, ho2]
    · intro r2 h2
      cases h2
    · intro err h2
      rfl

/-- C13. For a callable `h`, `MakeCallee` returns `h` and takes exactly one
reference to it.  One run of `OnMotionStartedCallback` on a motion whose
on-start callee is `h` makes exactly one handler call, of `h` with the group
and the index (so none of the on-finish callee), takes one off the reference
count of `h` and leaves every other count as it was, whether the call returns
or raises; `MakeCallee` and then this run leave the count of `h` as it was.
The same for `OnMotionFinishedCallback` and the on-finish callee, called with
no arguments. -/
theorem register_then_fire_balances (interp : PyObject → List CValue → CallOutcome)
    (ts : PyThreadState) (motion : ACubismMotion) (h : PyObject)
    (hcallable : PyCallable_Check h = true) :
    MakeCallee ts (some h) = (some h, ts, [Effect.incref h]) ∧
    refDelta interp h (MakeCallee ts (some h)).2.2 = 1 ∧
    (motion.onStartedCallee = some h →
      handlerCalls (OnMotionStartedCallback interp ts motion).2
        = [(h, [CValue.str motion.group, CValue.int motion.no])] ∧
      refDelta interp h (OnMotionStartedCallback interp ts motion).2 = -1 ∧
      refDelta interp h
        ((MakeCallee ts (some h)).2.2 ++ (OnMotionStartedCallback interp ts motion).2) = 0 ∧
      (∀ o : PyObject, o ≠ h →
        refDelta interp o (OnMotionStartedCallback interp ts motion).2 = 0) ∧
      (∀ r : PyObject,
        interp h [CValue.str motion.group, CValue.int motion.no] = CallOutcome.returned r →
        (OnMotionStartedCallback interp ts motion).2
          = [Effect.gilEnsure,
             Effect.call h [CValue.str motion.group, CValue.int motion.no],
             Effect.decref r, Effect.decref h, Effect.gilRelease])) ∧
    (motion.onFinishedCallee = some h →
      handlerCalls (OnMotionFinishedCallback interp ts motion).2 = [(h, [])] ∧
      refDelta interp h (OnMotionFinishedCallback interp ts motion).2 = -1 ∧
      refDelta interp h
        ((MakeCallee ts (some h)).2.2 ++ (OnMotionFinishedCallback interp ts motion).2) = 0 ∧
      (∀ o : PyObject, o ≠ h →
        refDelta interp o (OnMotionFinishedCallback interp ts motion).2 = 0) ∧
      (∀ r : PyObject, interp h [] = CallOutcome.returned r →
        (OnMotionFinishedCallback interp ts motion).2
          = [Effect.gilEnsure, Effect.call h [], Effect.decref r, Effect.decref h,
             Effect.gilRelease])) := by
  have hmake : MakeCallee ts (some h) = (some h, ts, [Effect.incref h]) := by
    cases h <;> simp [PyCallable_Check] at hcallable
    simp [MakeCallee, Py_IsNone, PyCallable_Check]
  refine ⟨hmake, ?_, ?_, ?_⟩
  · rw [hmake]
    simp [refDelta]
  · intro hstart
    obtain ⟨effects, heq, hcalls, hdelta, hothers, hret, _⟩ :=
      fire_effects interp ts h [CValue.str motion.group, CValue.int motion.no]
    have hrun : OnMotionStartedCallback interp ts motion
        = ((PyObject_CallFunction interp ts h
              [CValue.str motion.group, CValue.int motion.no]).2, effects) := by
      rw [← heq]
      simp [OnMotionStartedCallback, hstart]
    rw [hrun, hmake]
    refine ⟨hcalls, hdelta, ?_, hothers, hret⟩
    show refDelta interp h (Effect.incref h :: effects) = 0
    simp [refDelta, hdelta]
  · intro hfinish
    obtain ⟨effects, heq, hcalls, hdelta, hothers, hret, _⟩ := fire_effects interp ts h []
    have hrun : OnMotionFinishedCallback interp ts motion
        = ((PyObject_CallFunction interp ts h []).2, effects) := by
      rw [← heq]
      simp [OnMotionFinishedCallback, hfinish]
    rw [hrun, hmake]
    refine ⟨hcalls, hdelta, ?_, hothers, hret⟩
    show refDelta interp h (Effect.incref h :: effects) = 0
    simp [refDelta, hdelta]

/-- A use of C13: the callable `Callable 1` is registered as the on-start
handler of a motion of group "Idle", index 0, whose on-finish handler is
`Callable 2`; the one call made is of `Callable 1` with ("Idle", 0). -/
theorem register_then_fire_balances_witness :
    handlerCalls (OnMotionStartedCallback (fun _ _ => CallOutcome.returned PyObject.None)
        { curexc := none }
        { onStartedCallee := some (PyObject.Callable 1),
          onFinishedCallee := some (PyObject.Callable 2), group := "Idle", no := 0 }).2
      = [(PyObject.Callable 1, [CValue.str "Idle", CValue.int 0])] :=
  ((register_then_fire_balances (fun _ _ => CallOutcome.returned PyObject.None)
      { curexc := none }
      { onStartedCallee := some (PyObject.Callable 1),
        onFinishedCallee := some (PyObject.Callable 2), group := "Idle", no := 0 }
      (PyObject.Callable 1) rfl).2.2.1 rfl).1

end Live2D
